import Mathlib

/-!
Shallow embedding of the Recordly recording engine
(`src/recorder.js` and `src/compositor.worker.js`).

Chunks are modelled as byte lists, streams as lists of track ids, the
chunk queue as a `List Chunk`, and the `ondataavailable` handler, the
`stop`/`pause`/`resume`/`cleanup` operations, codec negotiation, the
combined-stream fallback policy, the compositor inset geometry and the
worker compose loop as pure Lean functions translated from the source.
-/

namespace Recordly

/-- A chunk of encoded output: an opaque byte sequence (recorder.js uses Blob). -/
abbrev Chunk := List Nat

/-- The `ondataavailable` handler of recorder.js (lines 505-525): if the event
carries a non-empty payload, evict the oldest chunk when the queue is at or
above `maxChunks` (`this.chunks.shift()`), append the payload
(`this.chunks.push(e.data)`) and emit a `dataavailable` event carrying the
payload; otherwise do nothing.  Returns the new queue together with the list
of sizes carried by the events emitted during this call. -/
def ondata (maxChunks : Nat) (chunks : List Chunk) (data : Option Chunk) :
    List Chunk × List Nat :=
  match data with
  | none => (chunks, [])
  | some d =>
      if 0 < d.length then
        ((if maxChunks ≤ chunks.length then chunks.tail else chunks) ++ [d],
         [d.length])
      else (chunks, [])

/-- Feed a whole sequence of chunk arrivals into the handler, starting from the
empty queue (`this.chunks = []` in `setupRecorder`), keeping only the queue. -/
def insertAll (maxChunks : Nat) (ds : List Chunk) : List Chunk :=
  ds.foldl (fun c d => (ondata maxChunks c (some d)).1) []

/-- One non-empty insertion step keeps the queue length at most `maxChunks`
when it was so before (and `maxChunks ≥ 1`). -/
theorem ondata_length_le (maxChunks : Nat) (hmax : 1 ≤ maxChunks)
    (chunks : List Chunk) (d : Option Chunk)
    (h : chunks.length ≤ maxChunks) :
    (ondata maxChunks chunks d).1.length ≤ maxChunks := by
  match d with
  | none => simpa [ondata] using h
  | some d =>
      by_cases hd : 0 < d.length
      · by_cases hfull : maxChunks ≤ chunks.length
        · have hres : (ondata maxChunks chunks (some d)).1 = chunks.tail ++ [d] := by
            simp [ondata, hd, hfull]
          have htail : chunks.tail.length = chunks.length - 1 :=
            List.length_tail chunks
          rw [hres, List.length_append, List.length_singleton]
          omega
        · have hres : (ondata maxChunks chunks (some d)).1 = chunks ++ [d] := by
            simp [ondata, hd, hfull]
          rw [hres, List.length_append, List.length_singleton]
          omega
      · simpa [ondata, hd] using h

/-- Folding the handler over arrivals, starting from a queue that satisfies
the bound, preserves the bound. -/
theorem insertAll_length_le (maxChunks : Nat) (hmax : 1 ≤ maxChunks)
    (ds : List Chunk) :
    (insertAll maxChunks ds).length ≤ maxChunks := by
  suffices h : ∀ (acc : List Chunk), acc.length ≤ maxChunks →
      (ds.foldl (fun c d => (ondata maxChunks c (some d)).1) acc).length ≤
        maxChunks by
    exact h [] (by simp)
  induction ds with
  | nil => intro acc hacc; simpa using hacc
  | cons d ds ih =>
      intro acc hacc
      exact ih _ (ondata_length_le maxChunks hmax acc (some d) hacc)

/-- After inserting a sequence of non-empty chunks, the queue is exactly the
last `maxChunks` arrivals in order (all arrivals when fewer than that). -/
theorem insertAll_eq_drop (maxChunks : Nat) (hmax : 1 ≤ maxChunks)
    (ds : List Chunk) (hne : ∀ d ∈ ds, 0 < d.length) :
    insertAll maxChunks ds = ds.drop (ds.length - maxChunks) := by
  induction ds using List.reverseRecOn with
  | nil => simp [insertAll]
  | append_singleton ds d ih =>
      have hd : 0 < d.length := hne d (by simp)
      have hds : ∀ x ∈ ds, 0 < x.length := fun x hx => hne x (by simp [hx])
      have hstep : insertAll maxChunks (ds ++ [d]) =
          (ondata maxChunks (insertAll maxChunks ds) (some d)).1 := by
        simp [insertAll, List.foldl_append]
      rw [hstep, ih hds]
      have hlen : (ds.drop (ds.length - maxChunks)).length =
          min ds.length maxChunks := by
        rw [List.length_drop]; omega
      by_cases hfull : maxChunks ≤ ds.length
      · have hql : (ds.drop (ds.length - maxChunks)).length = maxChunks := by
          rw [hlen]; omega
        have hcond : maxChunks ≤ (ds.drop (ds.length - maxChunks)).length := by
          rw [hql]
        have hres : (ondata maxChunks (ds.drop (ds.length - maxChunks))
            (some d)).1 = (ds.drop (ds.length - maxChunks)).tail ++ [d] := by
          simp only [ondata]
          rw [if_pos hd, if_pos hcond]
        have htail : (ds.drop (ds.length - maxChunks)).tail =
            ds.drop (ds.length - maxChunks + 1) := by
          rw [List.tail_drop]
        have harith : (ds ++ [d]).length - maxChunks =
            ds.length - maxChunks + 1 := by
          rw [List.length_append, List.length_singleton]
          omega
        rw [hres, htail, harith, List.drop_append_of_le_length (by omega)]
      · have hql : (ds.drop (ds.length - maxChunks)).length < maxChunks := by
          rw [hlen]; omega
        have hres : (ondata maxChunks (ds.drop (ds.length - maxChunks))
            (some d)).1 = ds.drop (ds.length - maxChunks) ++ [d] := by
          simp only [ondata]
          rw [if_pos hd, if_neg (not_le.mpr hql)]
        have harith : (ds ++ [d]).length - maxChunks = 0 := by
          rw [List.length_append, List.length_singleton]
          omega
        have hd0 : ds.length - maxChunks = 0 := by omega
        rw [hres, harith, hd0]
        simp

/-- C1: for every sequence of chunk arrivals the queue length never exceeds
`maxChunks` (the state after any arrival sequence is `insertAll` of it), and
after `N > maxChunks` insertions of non-empty chunks the queue holds exactly
the last `maxChunks` chunks in their original insertion order. -/
theorem chunk_queue_bounded_and_holds_last (maxChunks : Nat)
    (hmax : 1 ≤ maxChunks) (ds : List Chunk) :
    (insertAll maxChunks ds).length ≤ maxChunks ∧
      ((∀ d ∈ ds, 0 < d.length) → maxChunks < ds.length →
        insertAll maxChunks ds = ds.drop (ds.length - maxChunks) ∧
          (insertAll maxChunks ds).length = maxChunks) := by
  refine ⟨insertAll_length_le maxChunks hmax ds, fun hne hlt => ?_⟩
  refine ⟨insertAll_eq_drop maxChunks hmax ds hne, ?_⟩
  rw [insertAll_eq_drop maxChunks hmax ds hne, List.length_drop]
  omega

/-- C1 witness: with capacity 2 and three non-empty arrivals, the bound holds
and the queue is exactly the last two chunks in order. -/
theorem chunk_queue_bounded_and_holds_last_witness :
    (insertAll 2 [[1], [2], [3]]).length ≤ 2 ∧
      insertAll 2 [[1], [2], [3]] = [[2], [3]] := by
  have h := chunk_queue_bounded_and_holds_last 2 (by decide)
    [[1], [2], [3]]
  have h2 := h.2 (by decide) (by decide)
  refine ⟨h.1, ?_⟩
  have hdrop : ([([1] : Chunk), [2], [3]]).drop (3 - 2) = [[2], [3]] := by decide
  simpa [hdrop] using h2.1

/-- C3: at a flush boundary the handler appends the payload to the queue and
emits exactly one `dataavailable` event carrying its size if and only if the
payload is present and non-empty; an empty (or absent) payload leaves the
queue unchanged and emits no event. -/
theorem flush_enqueues_and_emits_iff_nonempty (maxChunks : Nat)
    (chunks : List Chunk) (data : Option Chunk) :
    ((∃ d, data = some d ∧ 0 < d.length) ↔
      (∃ d, data = some d ∧
        (ondata maxChunks chunks data).1 =
          (if maxChunks ≤ chunks.length then chunks.tail else chunks) ++ [d] ∧
        (ondata maxChunks chunks data).2 = [d.length])) ∧
    ((∀ d, data = some d → d.length = 0) →
      (ondata maxChunks chunks data).1 = chunks ∧
        (ondata maxChunks chunks data).2 = []) := by
  constructor
  · constructor
    · rintro ⟨d, rfl, hd⟩
      exact ⟨d, rfl, by simp [ondata, hd], by simp [ondata, hd]⟩
    · rintro ⟨d, rfl, hq, hev⟩
      refine ⟨d, rfl, ?_⟩
      by_cases hd : 0 < d.length
      · exact hd
      · simp [ondata, hd] at hev
  · intro hempty
    match data with
    | none => simp [ondata]
    | some d =>
        have hd : d.length = 0 := hempty d rfl
        simp [ondata, hd]

/-- Recording states of the platform encoder (`MediaRecorder.state`). -/
inductive RecState
  | inactive
  | recording
  | paused
deriving DecidableEq, Repr

/-- The platform encoder handle as the recorder sees it: its state and the
negotiated mime type. -/
structure MediaRecorderM where
  state : RecState
  mimeType : String
deriving DecidableEq, Repr

/-- A stream is the list of ids of the tracks it holds. -/
structure Stream where
  tracks : List Nat
deriving DecidableEq, Repr

/-- The three stream slots of recorder.js (`this.streams`). -/
structure Streams where
  screen : Option Stream
  webcam : Option Stream
  combined : Option Stream
deriving DecidableEq, Repr

/-- The mutable state of a `Recorder` instance (recorder.js constructor),
restricted to the fields the claims are about.  Presence-only resources
(worker, canvas, audio context) are booleans. -/
structure RecorderState where
  mediaRecorder : Option MediaRecorderM
  chunks : List Chunk
  streams : Streams
  canvasStream : Option Stream
  audioContext : Bool
  worker : Bool
  canvas : Bool
  isRecording : Bool
deriving DecidableEq, Repr

/-- The final artifact: a Blob holding the concatenated chunk bytes and a
mime type tag. -/
structure Blob where
  data : List Nat
  type : String
deriving DecidableEq, Repr

/-- Size of a Blob in bytes. -/
def Blob.size (b : Blob) : Nat := b.data.length

/-- Artifact assembly in `Recorder.stop` (recorder.js lines 565-613): with no
encoder present it resolves `null`; otherwise `handleStop` builds a Blob from
the queued chunks in order, tagged `mediaRecorder.mimeType || "video/webm"`,
and resolves it.  Blob construction cannot fail in this model, matching the
fact that `new Blob(this.chunks, ...)` does not throw on an empty list. -/
def stopBlob (mediaRecorder : Option MediaRecorderM) (chunks : List Chunk) :
    Option Blob :=
  match mediaRecorder with
  | none => none
  | some mr =>
      some { data := chunks.flatten
             type := if mr.mimeType = "" then "video/webm" else mr.mimeType }

/-- C2: on a session where recording was started (an encoder exists), `stop`
returns an artifact whose bytes are the in-order concatenation of all queued
chunks and whose size is the sum of the chunk sizes; with zero chunks the
artifact has size 0 and no exception is raised (the result is `some`, never
an error). -/
theorem stop_returns_concatenation (mr : MediaRecorderM) (chunks : List Chunk) :
    ∃ b : Blob, stopBlob (some mr) chunks = some b ∧
      b.data = chunks.flatten ∧
      b.size = (chunks.map List.length).sum ∧
      (chunks = [] → b.size = 0) := by
  refine ⟨_, rfl, rfl, ?_, ?_⟩
  · simp [Blob.size, List.length_flatten]
  · intro h
    simp [Blob.size, h]

/-- C2 witness: with a concrete encoder and two chunks the artifact is their
concatenation, and with zero chunks its size is 0. -/
theorem stop_returns_concatenation_witness :
    (∃ b : Blob, stopBlob (some ⟨RecState.recording, "video/webm"⟩)
        [[1, 2], [3]] = some b ∧ b.data = [1, 2, 3] ∧ b.size = 3) ∧
    (∃ b : Blob, stopBlob (some ⟨RecState.recording, "video/webm"⟩) [] =
        some b ∧ b.size = 0) := by
  constructor
  · obtain ⟨b, hb, hdata, hsize, _⟩ :=
      stop_returns_concatenation ⟨RecState.recording, "video/webm"⟩ [[1, 2], [3]]
    exact ⟨b, hb, by simpa using hdata, by simpa using hsize⟩
  · obtain ⟨b, hb, _, _, hz⟩ :=
      stop_returns_concatenation ⟨RecState.recording, "video/webm"⟩ []
    exact ⟨b, hb, hz rfl⟩

/-- The `pause` operation (recorder.js lines 545-550): only when an encoder
exists and its state is `recording` does it transition the encoder to
`paused`; otherwise nothing happens. -/
def Recorder.pause (r : RecorderState) : RecorderState :=
  match r.mediaRecorder with
  | some mr =>
      if mr.state = RecState.recording then
        { r with mediaRecorder := some { mr with state := RecState.paused } }
      else r
  | none => r

/-- The `resume` operation (recorder.js lines 555-560): only when an encoder
exists and its state is `paused` does it transition the encoder to
`recording`; otherwise nothing happens. -/
def Recorder.resume (r : RecorderState) : RecorderState :=
  match r.mediaRecorder with
  | some mr =>
      if mr.state = RecState.paused then
        { r with mediaRecorder := some { mr with state := RecState.recording } }
      else r
  | none => r

/-- C4: `pause` changes the encoder state only when it is currently
`recording` and `resume` only when it is currently `paused`; in every other
state (including before start, when no encoder exists, and after stop) each
is a no-op returning the session state unchanged, and both are total
functions (they cannot throw). -/
theorem pause_resume_state_machine (r : RecorderState) :
    (∀ mr, r.mediaRecorder = some mr → mr.state = RecState.recording →
      Recorder.pause r =
        { r with mediaRecorder := some { mr with state := RecState.paused } }) ∧
    (∀ mr, r.mediaRecorder = some mr → mr.state ≠ RecState.recording →
      Recorder.pause r = r) ∧
    (r.mediaRecorder = none → Recorder.pause r = r) ∧
    (∀ mr, r.mediaRecorder = some mr → mr.state = RecState.paused →
      Recorder.resume r =
        { r with mediaRecorder := some { mr with state := RecState.recording } }) ∧
    (∀ mr, r.mediaRecorder = some mr → mr.state ≠ RecState.paused →
      Recorder.resume r = r) ∧
    (r.mediaRecorder = none → Recorder.resume r = r) := by
  refine ⟨?_, ?_, ?_, ?_, ?_, ?_⟩
  · intro mr hmr hst
    simp [Recorder.pause, hmr, hst]
  · intro mr hmr hst
    simp [Recorder.pause, hmr, hst]
  · intro hnone
    simp [Recorder.pause, hnone]
  · intro mr hmr hst
    simp [Recorder.resume, hmr, hst]
  · intro mr hmr hst
    simp [Recorder.resume, hmr, hst]
  · intro hnone
    simp [Recorder.resume, hnone]

/-- A concrete session state with a given encoder state, used as a witness
input. -/
def sampleSession (st : RecState) : RecorderState :=
  { mediaRecorder := some { state := st, mimeType := "video/webm" }
    chunks := []
    streams := { screen := none, webcam := none, combined := none }
    canvasStream := none
    audioContext := false
    worker := false
    canvas := false
    isRecording := false }

/-- C4 witness: on a concrete inactive-encoder session `pause` is a no-op,
and on a recording session `pause` moves the encoder to `paused`. -/
theorem pause_resume_state_machine_witness :
    Recorder.pause (sampleSession RecState.inactive) =
        sampleSession RecState.inactive ∧
      Recorder.pause (sampleSession RecState.recording) =
        { sampleSession RecState.recording with
            mediaRecorder := some ⟨RecState.paused, "video/webm"⟩ } := by
  constructor
  · exact (pause_resume_state_machine (sampleSession RecState.inactive)).2.1
      ⟨RecState.inactive, "video/webm"⟩ rfl (by decide)
  · exact (pause_resume_state_machine (sampleSession RecState.recording)).1
      ⟨RecState.recording, "video/webm"⟩ rfl rfl

/-- Track store: for each track id, whether `track.stop()` has taken effect.
Stopping an already-stopped track leaves the store unchanged (the platform
treats double release as a no-op). -/
abbrev TrackStore := Nat → Bool

/-- Stop every track in a list of ids (`stream.getTracks().forEach(track =>
track.stop())`). -/
def stopTracks (store : TrackStore) (ids : List Nat) : TrackStore :=
  fun j => if j ∈ ids then true else store j

/-- Track ids held by an optional stream slot. -/
def streamIds : Option Stream → List Nat
  | none => []
  | some s => s.tracks

/-- Ids of the tracks acquired from the two capture origins (screen and
webcam); the combined stream and the canvas stream are derived, not
acquired. -/
def acquiredIds (r : RecorderState) : List Nat :=
  streamIds r.streams.screen ++ streamIds r.streams.webcam

/-- The fully torn-down recorder state that `cleanup` establishes. -/
def cleanState : RecorderState :=
  { mediaRecorder := none
    chunks := []
    streams := { screen := none, webcam := none, combined := none }
    canvasStream := none
    audioContext := false
    worker := false
    canvas := false
    isRecording := false }

/-- The `cleanup` operation (recorder.js lines 618-679): clears the recording
flag, drops the encoder, stops every track of the three stream slots and of
the canvas stream, nulls all slots, closes the audio context, terminates the
worker, drops the canvas and empties the chunk queue. -/
def Recorder.cleanup (r : RecorderState) (store : TrackStore) :
    RecorderState × TrackStore :=
  let store1 := stopTracks store
    (streamIds r.streams.screen ++ streamIds r.streams.webcam ++
      streamIds r.streams.combined)
  let store2 := stopTracks store1 (streamIds r.canvasStream)
  (cleanState, store2)

/-- C9: `cleanup` is idempotent: the second of two successive invocations is a
no-op returning exactly the state and track store the first produced; after
the first invocation all stream slots are null, the chunk queue is empty, no
encoder and no worker remain; every acquired track that was live is released
by the first invocation and the second releases nothing (double release is a
no-op), so each acquired track is released exactly once across the two
invocations. -/
theorem cleanup_idempotent (r : RecorderState) (store : TrackStore) :
    Recorder.cleanup (Recorder.cleanup r store).1 (Recorder.cleanup r store).2 =
        Recorder.cleanup r store ∧
      (Recorder.cleanup r store).1.streams = ⟨none, none, none⟩ ∧
      (Recorder.cleanup r store).1.chunks = [] ∧
      (Recorder.cleanup r store).1.mediaRecorder = none ∧
      (Recorder.cleanup r store).1.worker = false ∧
      (Recorder.cleanup r store).1.canvasStream = none ∧
      (∀ id ∈ acquiredIds r, (Recorder.cleanup r store).2 id = true) ∧
      (∀ id ∈ acquiredIds r, store id = false →
        (Recorder.cleanup r store).2 id = true ∧
          (Recorder.cleanup (Recorder.cleanup r store).1
            (Recorder.cleanup r store).2).2 id = (Recorder.cleanup r store).2 id) := by
  have hsecond : Recorder.cleanup (Recorder.cleanup r store).1
      (Recorder.cleanup r store).2 = Recorder.cleanup r store := by
    simp only [Recorder.cleanup, cleanState]
    refine Prod.ext rfl ?_
    funext j
    simp [stopTracks, streamIds]
  refine ⟨hsecond, rfl, rfl, rfl, rfl, rfl, ?_, ?_⟩
  · intro id hid
    have hmem : id ∈ streamIds r.streams.screen ++ streamIds r.streams.webcam ++
        streamIds r.streams.combined := by
      rw [List.append_assoc]
      rcases List.mem_append.mp hid with h | h
      · exact List.mem_append.mpr (Or.inl h)
      · exact List.mem_append.mpr (Or.inr (List.mem_append.mpr (Or.inl h)))
    simp only [Recorder.cleanup, stopTracks]
    by_cases hc : id ∈ streamIds r.canvasStream
    · rw [if_pos hc]
    · rw [if_neg hc, if_pos hmem]
  · intro id hid _
    refine ⟨?_, ?_⟩
    · have hmem : id ∈ streamIds r.streams.screen ++
          streamIds r.streams.webcam ++ streamIds r.streams.combined := by
        rw [List.append_assoc]
        rcases List.mem_append.mp hid with h | h
        · exact List.mem_append.mpr (Or.inl h)
        · exact List.mem_append.mpr (Or.inr (List.mem_append.mpr (Or.inl h)))
      simp only [Recorder.cleanup, stopTracks]
      by_cases hc : id ∈ streamIds r.canvasStream
      · rw [if_pos hc]
      · rw [if_neg hc, if_pos hmem]
    · rw [hsecond]

/-- A concrete pre-teardown session: screen tracks 1 and 2, webcam track 3,
combined stream holding track 4, canvas stream holding track 4 as well. -/
def rSample : RecorderState :=
  { mediaRecorder := some { state := RecState.recording, mimeType := "video/webm" }
    chunks := [[7]]
    streams := { screen := some ⟨[1, 2]⟩, webcam := some ⟨[3]⟩,
                 combined := some ⟨[4]⟩ }
    canvasStream := some ⟨[4]⟩
    audioContext := true
    worker := true
    canvas := true
    isRecording := true }

/-- The all-live track store. -/
def storeSample : TrackStore := fun _ => false

/-- C9 witness: on the concrete session, the second `cleanup` returns exactly
the first result, and acquired track 1 is released by the first invocation
and untouched by the second. -/
theorem cleanup_idempotent_witness :
    Recorder.cleanup (Recorder.cleanup rSample storeSample).1
        (Recorder.cleanup rSample storeSample).2 =
      Recorder.cleanup rSample storeSample ∧
    (Recorder.cleanup rSample storeSample).2 1 = true ∧
    (Recorder.cleanup (Recorder.cleanup rSample storeSample).1
        (Recorder.cleanup rSample storeSample).2).2 1 =
      (Recorder.cleanup rSample storeSample).2 1 := by
  have h := cleanup_idempotent rSample storeSample
  have hmem : (1 : Nat) ∈ acquiredIds rSample := by
    simp [acquiredIds, rSample, streamIds]
  have hfalse : storeSample 1 = false := rfl
  exact ⟨h.1, (h.2.2.2.2.2.2.2 1 hmem hfalse).1, (h.2.2.2.2.2.2.2 1 hmem hfalse).2⟩

/-- The ordered codec preference list of `setupRecorder` (lines 475-480). -/
def mimeTypes : List String :=
  ["video/webm;codecs=vp9,opus", "video/webm;codecs=vp8,opus",
   "video/webm;codecs=h264,opus", "video/webm"]

/-- Recording mode (`config.mode`). -/
inductive Mode
  | screen
  | webcam
  | combined
deriving DecidableEq, Repr

/-- Stream selection of `setupRecorder` (lines 454-468). -/
def streamForMode (streams : Streams) : Mode → Option Stream
  | Mode.screen => streams.screen
  | Mode.webcam => streams.webcam
  | Mode.combined => streams.combined

/-- The `setupRecorder` operation (lines 451-540): select the stream for the
mode, fail when it is absent, negotiate the first supported mime type in
order (fail with the unsupported-format error when none is), and construct
the encoder, initially inactive. -/
def setupRecorderM (support : String → Bool) (mode : Mode) (streams : Streams) :
    Except String MediaRecorderM :=
  match streamForMode streams mode with
  | none => Except.error "No stream available for recording"
  | some _ =>
      match mimeTypes.find? support with
      | none => Except.error "No supported video format found"
      | some m => Except.ok { state := RecState.inactive, mimeType := m }

/-- The tail of `start` after `setupStreams` (lines 65-81): run
`setupRecorderM`; on success start the encoder with a one-second timeslice
and set the recording flag; on failure run `cleanup` and rethrow the error
wrapped in a start-failure message. -/
def startFromStreams (support : String → Bool) (mode : Mode)
    (r : RecorderState) (store : TrackStore) :
    Option String × RecorderState × TrackStore :=
  match setupRecorderM support mode r.streams with
  | Except.error e =>
      let c := Recorder.cleanup r store
      (some ("Failed to start recording: " ++ e), c.1, c.2)
  | Except.ok mr =>
      (none,
       { r with mediaRecorder := some { mr with state := RecState.recording }
                chunks := []
                isRecording := true },
       store)

/-- A list search skips any leading segment on which the predicate is false. -/
theorem find?_append_of_forall_false {α : Type} (p : α → Bool)
    (l1 l2 : List α) (h : ∀ x ∈ l1, p x = false) :
    (l1 ++ l2).find? p = l2.find? p := by
  induction l1 with
  | nil => simp
  | cons a l ih =>
      have ha : p a = false := h a (by simp)
      have hl : ∀ x ∈ l, p x = false := fun x hx => h x (by simp [hx])
      simp [List.find?, ha, ih hl]

/-- C5: codec negotiation selects the first entry of the preference list the
host supports, so when everything before the last entry is unsupported and
the last is supported, the last is selected and the encoder is built with it;
and when no entry is supported, `start` fails with the unsupported-format
error and its rollback leaves all stream slots null and every acquired track
released. -/
theorem codec_negotiation_first_match_and_rollback (support : String → Bool)
    (mode : Mode) (r : RecorderState) (store : TrackStore) :
    (∀ l1 m l2, mimeTypes = l1 ++ m :: l2 → (∀ x ∈ l1, support x = false) →
      support m = true → mimeTypes.find? support = some m) ∧
    ((∀ x ∈ mimeTypes.dropLast, support x = false) →
      support "video/webm" = true →
      ∀ s, streamForMode r.streams mode = some s →
        setupRecorderM support mode r.streams =
          Except.ok { state := RecState.inactive, mimeType := "video/webm" }) ∧
    ((∀ x ∈ mimeTypes, support x = false) →
      ∀ s, streamForMode r.streams mode = some s →
        (startFromStreams support mode r store).1 =
            some "Failed to start recording: No supported video format found" ∧
          (startFromStreams support mode r store).2.1.streams =
            ⟨none, none, none⟩ ∧
          ∀ id ∈ acquiredIds r,
            (startFromStreams support mode r store).2.2 id = true) := by
  refine ⟨?_, ?_, ?_⟩
  · intro l1 m l2 heq h1 hm
    rw [heq, find?_append_of_forall_false support l1 (m :: l2) h1]
    simp [List.find?, hm]
  · intro h1 hm s hs
    have hfind : mimeTypes.find? support = some "video/webm" := by
      have heq : mimeTypes = mimeTypes.dropLast ++ ["video/webm"] := by rfl
      rw [heq, find?_append_of_forall_false support _ _ h1]
      simp [List.find?, hm]
    simp [setupRecorderM, hs, hfind]
  · intro hnone s hs
    have hfind : mimeTypes.find? support = none := by
      rw [List.find?_eq_none]
      intro x hx
      simp [hnone x hx]
    have hsetup : setupRecorderM support mode r.streams =
        Except.error "No supported video format found" := by
      simp [setupRecorderM, hs, hfind]
    have hstart : startFromStreams support mode r store =
        (some "Failed to start recording: No supported video format found",
         (Recorder.cleanup r store).1, (Recorder.cleanup r store).2) := by
      simp [startFromStreams, hsetup]
    refine ⟨by rw [hstart], by rw [hstart]; exact (cleanup_idempotent r store).2.1,
      fun id hid => ?_⟩
    rw [hstart]
    exact (cleanup_idempotent r store).2.2.2.2.2.2.1 id hid

/-- A host where only plain `video/webm` (the last preference) is supported. -/
def supportLastOnly : String → Bool := fun m => m = "video/webm"

/-- C5 witness: with only the last preference supported, negotiation selects
it and the encoder is built with it; with no support at all, `start` on the
sample session fails with the unsupported-format error, nulls all stream
slots and releases acquired track 1. -/
theorem codec_negotiation_first_match_and_rollback_witness :
    mimeTypes.find? supportLastOnly = some "video/webm" ∧
    setupRecorderM supportLastOnly Mode.screen rSample.streams =
      Except.ok { state := RecState.inactive, mimeType := "video/webm" } ∧
    (startFromStreams (fun _ => false) Mode.screen rSample storeSample).1 =
      some "Failed to start recording: No supported video format found" ∧
    (startFromStreams (fun _ => false) Mode.screen rSample storeSample).2.2 1 =
      true := by
  have h := codec_negotiation_first_match_and_rollback supportLastOnly
    Mode.screen rSample storeSample
  have h2 := codec_negotiation_first_match_and_rollback (fun _ => false)
    Mode.screen rSample storeSample
  have hs : streamForMode rSample.streams Mode.screen = some ⟨[1, 2]⟩ := rfl
  have hdrop : ∀ x ∈ mimeTypes.dropLast, supportLastOnly x = false := by decide
  have hlast : supportLastOnly "video/webm" = true := by decide
  have hn : ∀ x ∈ mimeTypes, (fun (_ : String) => false) x = false := by
    intro x _; rfl
  refine ⟨?_, h.2.1 hdrop hlast ⟨[1, 2]⟩ hs, (h2.2.2 hn ⟨[1, 2]⟩ hs).1, ?_⟩
  · have heq : mimeTypes = mimeTypes.dropLast ++ "video/webm" :: [] := by rfl
    exact h.1 mimeTypes.dropLast "video/webm" [] heq hdrop hlast
  · refine (h2.2.2 hn ⟨[1, 2]⟩ hs).2.2 1 ?_
    simp [acquiredIds, rSample, streamIds]

/-- C3 witness: on a concrete queue, a present but empty payload changes
nothing and emits nothing. -/
theorem flush_enqueues_and_emits_iff_nonempty_witness :
    (ondata 2 [[9]] (some [])).1 = [[9]] ∧ (ondata 2 [[9]] (some [])).2 = [] :=
  (flush_enqueues_and_emits_iff_nonempty 2 [[9]] (some [])).2
    (fun d hd => by cases hd; rfl)

/-- The event listener registry (`this.eventListeners`, a Map from event name
to the callbacks registered for it in registration order), modelled as a
total function; callbacks are identified by ids. -/
abbrev Listeners := String → List Nat

/-- The empty registry of a fresh Recorder. -/
def noListeners : Listeners := fun _ => []

/-- The `on` operation (recorder.js lines 39-44): get-or-create the callback
list for the event and push the callback at its end. -/
def onReg (m : Listeners) (event : String) (cb : Nat) : Listeners :=
  fun e => if e = event then m e ++ [cb] else m e

/-- Apply a sequence of registrations to the empty registry. -/
def regAll (regs : List (String × Nat)) : Listeners :=
  regs.foldl (fun m r => onReg m r.1 r.2) noListeners

/-- The `emit` operation (recorder.js lines 49-60): invoke every callback
registered for the event, in order, with the data; each invocation is
wrapped in try/catch, a thrown error being logged and swallowed.  `beh`
gives each callback's outcome on the data.  Returns the list of performed
invocations together with the log of caught errors; the return type carries
no error, so no listener exception reaches the emitter. -/
def emit (beh : Nat → Nat → Except String Unit) (m : Listeners)
    (event : String) (data : Nat) : List (Nat × Nat) × List String :=
  (m event).foldl
    (fun acc cb =>
      match beh cb data with
      | Except.ok _ => (acc.1 ++ [(cb, data)], acc.2)
      | Except.error err => (acc.1 ++ [(cb, data)], acc.2 ++ [err]))
    ([], [])

/-- The invocation trace of `emit` covers the whole callback list in order,
with the same data, independent of which callbacks throw. -/
theorem emit_trace_eq (beh : Nat → Nat → Except String Unit)
    (cbs : List Nat) (event : String) (data : Nat) (m : Listeners)
    (hm : m event = cbs) :
    (emit beh m event data).1 = cbs.map (fun cb => (cb, data)) := by
  subst hm
  suffices h : ∀ (l : List Nat) (acc : List (Nat × Nat) × List String),
      (l.foldl (fun acc cb =>
        match beh cb data with
        | Except.ok _ => (acc.1 ++ [(cb, data)], acc.2)
        | Except.error err => (acc.1 ++ [(cb, data)], acc.2 ++ [err])) acc).1 =
        acc.1 ++ l.map (fun cb => (cb, data)) by
    simpa using h (m event) ([], [])
  intro l
  induction l with
  | nil => intro acc; simp
  | cons cb l ih =>
      intro acc
      cases hbeh : beh cb data with
      | ok _ => simp [hbeh, ih]
      | error err => simp [hbeh, ih]

/-- Registration order: after any sequence of `on` calls starting from an
arbitrary registry, the callbacks registered for an event are the previous
ones followed by the new ones for that event, in call order. -/
theorem regAll_lookup (regs : List (String × Nat)) (event : String) :
    regAll regs event =
      (regs.filter (fun r => r.1 = event)).map Prod.snd := by
  suffices h : ∀ (regs : List (String × Nat)) (m : Listeners),
      (regs.foldl (fun m r => onReg m r.1 r.2) m) event =
        m event ++ (regs.filter (fun r => r.1 = event)).map Prod.snd by
    simpa [noListeners] using h regs noListeners
  intro regs
  induction regs with
  | nil => intro m; simp [regAll]
  | cons r regs ih =>
      intro m
      by_cases he : r.1 = event
      · simp only [List.foldl_cons, ih, onReg, List.filter_cons]
        rw [he]
        simp
      · simp only [List.foldl_cons, ih, onReg, List.filter_cons]
        have hne : ¬ event = r.1 := fun h => he h.symm
        simp [hne, he]

/-- C10: during `emit`, every callback registered for the event is invoked,
in registration order, with the same data; an exception thrown by one
callback neither prevents the remaining callbacks from being invoked (the
trace is independent of the callback outcomes) nor propagates to the emitter
(`emit` is a total function whose result carries no error). -/
theorem emit_isolates_listener_errors
    (beh beh2 : Nat → Nat → Except String Unit)
    (regs : List (String × Nat)) (event : String) (data : Nat) :
    (emit beh (regAll regs) event data).1 =
        ((regs.filter (fun r => r.1 = event)).map Prod.snd).map
          (fun cb => (cb, data)) ∧
      (emit beh (regAll regs) event data).1 =
        (emit beh2 (regAll regs) event data).1 := by
  constructor
  · exact emit_trace_eq beh _ event data (regAll regs) (regAll_lookup regs event)
  · rw [emit_trace_eq beh _ event data (regAll regs) (regAll_lookup regs event),
      emit_trace_eq beh2 _ event data (regAll regs) (regAll_lookup regs event)]

/-- Which compositor path produced the combined stream. -/
inductive PathSrc
  | webcodecs
  | canvasPath
deriving DecidableEq, Repr

/-- Configuration handed to combined-stream creation; the fallback closure
captures and reuses it unchanged. -/
structure CombConfig where
  width : Nat
  height : Nat
  frameRate : Nat
deriving DecidableEq, Repr

/-- State of the combined-stream acquisition in
`createCombinedStreamWebCodecs` (recorder.js lines 154-246): whether the
worker execution context is alive, which path (with which configuration)
has produced the combined stream, and whether the acquisition promise has
resolved. -/
structure CombState where
  worker : Bool
  combined : Option (PathSrc × CombConfig)
  resolved : Bool
deriving DecidableEq, Repr

/-- State right after the worker is spawned and the init message posted:
worker alive, no combined stream yet, promise pending. -/
def combInit : CombState :=
  { worker := true, combined := none, resolved := false }

/-- Observable events of the acquisition: the worker posts `ready`, the
worker posts a runtime `error`, or the 5-second safety timeout fires. -/
inductive CombEvent
  | workerReady
  | workerError
  | timeoutFires
deriving DecidableEq, Repr

/-- `fallbackToCanvas` (recorder.js lines 251-261): terminate the worker if
any, then restart composition via the software (canvas) compositor with the
identical configuration; the acquisition resolves with the canvas stream. -/
def fallbackToCanvas (cfg : CombConfig) : CombState :=
  { worker := false, combined := some (PathSrc.canvasPath, cfg),
    resolved := true }

/-- One step of the acquisition (recorder.js lines 185-235): a `ready`
message sets the WebCodecs combined stream and resolves; an `error` message
triggers the canvas fallback; the safety timeout triggers the canvas
fallback only when no combined stream exists yet.  Worker messages are only
delivered while the worker is alive (termination silences it). -/
def combStep (cfg : CombConfig) (st : CombState) (ev : CombEvent) : CombState :=
  match ev with
  | CombEvent.workerReady =>
      if st.worker then
        { st with combined := some (PathSrc.webcodecs, cfg), resolved := true }
      else st
  | CombEvent.workerError =>
      if st.worker then fallbackToCanvas cfg else st
  | CombEvent.timeoutFires =>
      if st.combined = none then fallbackToCanvas cfg else st

/-- Run the acquisition over a sequence of events. -/
def combRun (cfg : CombConfig) (evs : List CombEvent) : CombState :=
  evs.foldl (combStep cfg) combInit

/-- C6: when the accelerated compositor has not signalled readiness by the
time the 5-second timeout fires, or reports a runtime error while alive, the
caller terminates the worker and restarts composition via the software
(canvas) compositor with the identical configuration; and over every event
sequence the acquisition is resolved exactly when one of the two paths has
yielded a combined stream, that stream always carrying the original
configuration. -/
theorem webcodecs_fallback_policy (cfg : CombConfig) (st : CombState)
    (evs : List CombEvent) :
    (st.combined = none → combStep cfg st CombEvent.timeoutFires =
      { worker := false, combined := some (PathSrc.canvasPath, cfg),
        resolved := true }) ∧
    (st.worker = true → combStep cfg st CombEvent.workerError =
      { worker := false, combined := some (PathSrc.canvasPath, cfg),
        resolved := true }) ∧
    ((combRun cfg evs).resolved = (combRun cfg evs).combined.isSome ∧
      ∀ src c, (combRun cfg evs).combined = some (src, c) → c = cfg) := by
  refine ⟨?_, ?_, ?_⟩
  · intro h
    simp [combStep, h, fallbackToCanvas]
  · intro h
    simp [combStep, h, fallbackToCanvas]
  · have hinv : ∀ (l : List CombEvent) (s : CombState),
        s.resolved = s.combined.isSome →
        (∀ src c, s.combined = some (src, c) → c = cfg) →
        ((l.foldl (combStep cfg) s).resolved =
            (l.foldl (combStep cfg) s).combined.isSome ∧
          ∀ src c, (l.foldl (combStep cfg) s).combined = some (src, c) →
            c = cfg) := by
      intro l
      induction l with
      | nil => intro s h1 h2; exact ⟨h1, h2⟩
      | cons ev l ih =>
          intro s h1 h2
          refine ih (combStep cfg s ev) ?_ ?_
          · cases ev with
            | workerReady =>
                by_cases hw : s.worker
                · simp [combStep, hw]
                · simpa [combStep, hw] using h1
            | workerError =>
                by_cases hw : s.worker
                · simp [combStep, hw, fallbackToCanvas]
                · simpa [combStep, hw] using h1
            | timeoutFires =>
                by_cases hc : s.combined = none
                · simp [combStep, hc, fallbackToCanvas]
                · simpa [combStep, hc] using h1
          · cases ev with
            | workerReady =>
                by_cases hw : s.worker
                · intro src c hc
                  simp only [combStep, hw, if_true] at hc
                  cases hc
                  rfl
                · simpa [combStep, hw] using h2
            | workerError =>
                by_cases hw : s.worker
                · intro src c hc
                  simp only [combStep, hw, if_true, fallbackToCanvas] at hc
                  cases hc
                  rfl
                · simpa [combStep, hw] using h2
            | timeoutFires =>
                by_cases hc : s.combined = none
                · intro src c hcc
                  simp only [combStep, hc, if_true, fallbackToCanvas] at hcc
                  cases hcc
                  rfl
                · simpa [combStep, hc] using h2
    exact hinv evs combInit (by rfl) (by intro src c h; cases h)

/-- C6 witness: with a concrete configuration, the timeout firing on the
initial state terminates the worker and yields the canvas path with the
identical configuration, resolved; and a run consisting of just that timeout
is resolved with the original configuration. -/
theorem webcodecs_fallback_policy_witness :
    combStep ⟨1280, 720, 30⟩ combInit CombEvent.timeoutFires =
        { worker := false,
          combined := some (PathSrc.canvasPath, ⟨1280, 720, 30⟩),
          resolved := true } ∧
      (combRun ⟨1280, 720, 30⟩ [CombEvent.timeoutFires]).resolved =
        (combRun ⟨1280, 720, 30⟩ [CombEvent.timeoutFires]).combined.isSome := by
  have h := webcodecs_fallback_policy ⟨1280, 720, 30⟩ combInit
    [CombEvent.timeoutFires]
  exact ⟨h.1 rfl, h.2.2.1⟩

/-- Per-frame compositing geometry: background and border colours, the
destination rectangle of the primary frame, and the secondary
picture-in-picture inset (size, position, mirrored draw x, border width),
over exact rationals.  The JavaScript float literal `0.2` is modelled as the
rational `1 / 5`; the two differ by about `1.1e-17`, far below anything that
changes a floor at realistic widths. -/
structure FrameGeometry where
  bgColor : String
  borderColor : String
  primaryW : ℚ
  primaryH : ℚ
  pipW : ℚ
  pipH : ℚ
  pipX : ℚ
  pipY : ℚ
  mirrorDrawX : ℚ
  border : ℚ
deriving DecidableEq, Repr

/-- Geometry drawn by the software compositor `drawFrame` (recorder.js lines
298-333): black background, primary scaled to the full canvas, inset width
`Math.min(200, video.width * 0.2)` with no rounding, height scaled by the
secondary aspect ratio, 20px margins, mirrored draw at `-pipX - pipW`, 2px
white border. -/
def canvasGeometry (W H vw vh : ℚ) : FrameGeometry :=
  { bgColor := "#000"
    borderColor := "#fff"
    primaryW := W
    primaryH := H
    pipW := min 200 (W * (1 / 5))
    pipH := min 200 (W * (1 / 5)) * vh / vw
    pipX := W - min 200 (W * (1 / 5)) - 20
    pipY := H - min 200 (W * (1 / 5)) * vh / vw - 20
    mirrorDrawX := -(W - min 200 (W * (1 / 5)) - 20) - min 200 (W * (1 / 5))
    border := 2 }

/-- Geometry drawn by the accelerated compositor `composeLoop`
(compositor.worker.js lines 96-120): the same formulas except that the inset
width is `Math.min(200, Math.floor(W * 0.2))` and the inset height is
floored as well. -/
def workerGeometry (W H vw vh : ℚ) : FrameGeometry :=
  { bgColor := "#000"
    borderColor := "#fff"
    primaryW := W
    primaryH := H
    pipW := min 200 ((⌊W * (1 / 5)⌋ : ℤ) : ℚ)
    pipH := ((⌊min 200 ((⌊W * (1 / 5)⌋ : ℤ) : ℚ) * vh / vw⌋ : ℤ) : ℚ)
    pipX := W - min 200 ((⌊W * (1 / 5)⌋ : ℤ) : ℚ) - 20
    pipY := H - ((⌊min 200 ((⌊W * (1 / 5)⌋ : ℤ) : ℚ) * vh / vw⌋ : ℤ) : ℚ) - 20
    mirrorDrawX := -(W - min 200 ((⌊W * (1 / 5)⌋ : ℤ) : ℚ) - 20) -
      min 200 ((⌊W * (1 / 5)⌋ : ℤ) : ℚ)
    border := 2 }

/-- C7 counterexample: at target width 999 (height 720, secondary 640x480)
the software inset width is 999/5 = 199.8 while the accelerated inset width
is ⌊199.8⌋ = 199, so the two variants do not compute identical inset
geometry. -/
theorem compositor_geometry_not_identical :
    ¬ canvasGeometry 999 720 640 480 = workerGeometry 999 720 640 480 := by
  intro h
  have hp := congrArg FrameGeometry.pipW h
  simp only [canvasGeometry, workerGeometry] at hp
  norm_num [min_def] at hp

/-- C7 amended: both variants composite black background, primary scaled to
the full canvas, then the secondary as a horizontally mirrored bottom-right
inset of width min(200, 0.2·width) with a 20px margin and a 2px border, but
the accelerated variant floors the inset width and height to whole pixels;
whenever 0.2·width and the scaled inset height are integral the two variants
compute identical geometry. -/
theorem compositor_geometry_identical_when_integral (W H vw vh : ℚ)
    (hW : ((⌊W * (1 / 5)⌋ : ℤ) : ℚ) = W * (1 / 5))
    (hH : ((⌊min 200 (W * (1 / 5)) * vh / vw⌋ : ℤ) : ℚ) =
      min 200 (W * (1 / 5)) * vh / vw) :
    workerGeometry W H vw vh = canvasGeometry W H vw vh := by
  simp only [canvasGeometry, workerGeometry, hW, hH]

/-- C7 witness: at 1280x720 with a 640x480 secondary, 0.2·1280 = 256 and the
inset height 200·480/640 = 150 are integral, and the two variants compute
the same geometry. -/
theorem compositor_geometry_identical_when_integral_witness :
    workerGeometry 1280 720 640 480 = canvasGeometry 1280 720 640 480 := by
  refine compositor_geometry_identical_when_integral 1280 720 640 480 ?_ ?_
  · norm_num
  · norm_num [min_def]

/-- Liveness bookkeeping for the accelerated compose loop
(compositor.worker.js lines 56-140): the number of live (unclosed) frame
buffers per input and of composed output frames, and whether the loop
variables `screenFrame` and `webcamFrame` currently hold a frame. -/
structure FrameSt where
  liveScreen : Nat
  liveWebcam : Nat
  liveComposed : Nat
  heldScreen : Bool
  heldWebcam : Bool
deriving DecidableEq, Repr

/-- Loop entry state: no frames live, loop variables empty. -/
def frameInit : FrameSt :=
  { liveScreen := 0, liveWebcam := 0, liveComposed := 0,
    heldScreen := false, heldWebcam := false }

/-- Run the compose loop over a sequence of read outcomes, each a pair of
flags telling whether the screen and webcam readers delivered a frame
(`true`) or reported end-of-stream (`done`).  Mirrors one loop body of
`composeLoop`: the `Promise.all` read makes the delivered frames live, then
the previous held frames are closed, the new frames are assigned, a composed
frame is created, written and closed.  On `done` from either reader the loop
breaks and the cleanup closes only the held frames, so a frame delivered by
the non-done reader in the breaking read stays live.  Returns the trace of
states after each primitive operation and the final state. -/
def composeRun (st : FrameSt) : List (Bool × Bool) → List FrameSt × FrameSt
  | [] => ([], st)
  | (sOk, wOk) :: rest =>
      if sOk && wOk then
        let s1 := { st with liveScreen := st.liveScreen + 1,
                            liveWebcam := st.liveWebcam + 1 }
        let s2 := { s1 with
                      liveScreen := s1.liveScreen - s1.heldScreen.toNat,
                      liveWebcam := s1.liveWebcam - s1.heldWebcam.toNat,
                      heldScreen := false, heldWebcam := false }
        let s3 := { s2 with heldScreen := true, heldWebcam := true }
        let s4 := { s3 with liveComposed := s3.liveComposed + 1 }
        let s5 := { s4 with liveComposed := s4.liveComposed - 1 }
        let t := composeRun s5 rest
        (s1 :: s2 :: s3 :: s4 :: s5 :: t.1, t.2)
      else
        let s1 := { st with liveScreen := st.liveScreen + sOk.toNat,
                            liveWebcam := st.liveWebcam + wOk.toNat }
        let s2 := { s1 with
                      liveScreen := s1.liveScreen - s1.heldScreen.toNat,
                      liveWebcam := s1.liveWebcam - s1.heldWebcam.toNat,
                      heldScreen := false, heldWebcam := false }
        ([s1, s2], s2)

/-- Loop-boundary invariant of the compose loop: exactly the held frames are
live and no composed frame is live. -/
def FrameInv (st : FrameSt) : Prop :=
  st.liveScreen = st.heldScreen.toNat ∧
    st.liveWebcam = st.heldWebcam.toNat ∧ st.liveComposed = 0

/-- C8 counterexample: over two successful reads, the trace of the compose
loop contains a state with two live screen frames (the moment after the
second `Promise.all` read resolves and before the previous frames are
closed), so it is not the case that at most one frame buffer per input is
live at any time. -/
theorem compose_loop_two_frames_live :
    ¬ ∀ x ∈ (composeRun frameInit [(true, true), (true, true)]).1,
        x.liveScreen ≤ 1 ∧ x.liveWebcam ≤ 1 := by
  decide

/-- C8 amended: in the accelerated compose loop, at most two frame buffers
per input and one composed frame are live at any instant (the previous input
frames are closed immediately after the next pair is read, and the composed
frame is closed in the same iteration), and at every loop boundary at most
one frame per input and no composed frame is live — so buffering of frames
is bounded, though not by one per input within an iteration. -/
theorem compose_loop_liveness_bounded (evs : List (Bool × Bool))
    (st : FrameSt) (h : FrameInv st) :
    (∀ x ∈ (composeRun st evs).1,
        x.liveScreen ≤ 2 ∧ x.liveWebcam ≤ 2 ∧ x.liveComposed ≤ 1) ∧
      (composeRun st evs).2.liveScreen ≤ 1 ∧
      (composeRun st evs).2.liveWebcam ≤ 1 ∧
      (composeRun st evs).2.liveComposed = 0 := by
  induction evs generalizing st with
  | nil =>
      obtain ⟨h1, h2, h3⟩ := h
      have hbS : st.heldScreen.toNat ≤ 1 := by cases st.heldScreen <;> simp
      have hbW : st.heldWebcam.toNat ≤ 1 := by cases st.heldWebcam <;> simp
      exact ⟨by simp [composeRun], by simp [composeRun]; omega,
        by simp [composeRun]; omega, by simp [composeRun, h3]⟩
  | cons ev rest ih =>
      obtain ⟨sOk, wOk⟩ := ev
      obtain ⟨h1, h2, h3⟩ := h
      have hbS : st.heldScreen.toNat ≤ 1 := by cases st.heldScreen <;> simp
      have hbW : st.heldWebcam.toNat ≤ 1 := by cases st.heldWebcam <;> simp
      have hbS2 : sOk.toNat ≤ 1 := by cases sOk <;> simp
      have hbW2 : wOk.toNat ≤ 1 := by cases wOk <;> simp
      by_cases hok : (sOk && wOk) = true
      · have hinv5 : FrameInv
            { st with liveScreen := st.liveScreen + 1 - st.heldScreen.toNat,
                      liveWebcam := st.liveWebcam + 1 - st.heldWebcam.toNat,
                      liveComposed := st.liveComposed + 1 - 1,
                      heldScreen := true, heldWebcam := true } := by
          refine ⟨?_, ?_, ?_⟩ <;> simp <;> omega
        have hih := ih _ hinv5
        constructor
        · intro x hx
          simp only [composeRun, hok, if_true, List.mem_cons] at hx
          rcases hx with rfl | rfl | rfl | rfl | rfl | hx
          · exact ⟨by simp; omega, by simp; omega, by simp; omega⟩
          · exact ⟨by simp; omega, by simp; omega, by simp; omega⟩
          · exact ⟨by simp; omega, by simp; omega, by simp; omega⟩
          · exact ⟨by simp; omega, by simp; omega, by simp; omega⟩
          · exact ⟨by simp; omega, by simp; omega, by simp; omega⟩
          · exact hih.1 x hx
        · simpa only [composeRun, hok, if_true] using hih.2
      · have hf : (sOk && wOk) = false := by rwa [Bool.not_eq_true] at hok
        constructor
        · intro x hx
          simp only [composeRun, hf, Bool.false_eq_true, if_false,
            List.mem_cons, List.not_mem_nil, or_false] at hx
          rcases hx with rfl | rfl
          · exact ⟨by simp; omega, by simp; omega, by simp; omega⟩
          · exact ⟨by simp; omega, by simp; omega, by simp; omega⟩
        · refine ⟨?_, ?_, ?_⟩ <;>
            (simp only [composeRun, hf, Bool.false_eq_true, if_false];
              (try simp); omega)

/-- C8 amended witness: over a run with one successful read followed by a
read where the screen stream ends, at the final state at most one frame per
input is live and no composed frame is live. -/
theorem compose_loop_liveness_bounded_witness :
    (composeRun frameInit [(true, true), (false, true)]).2.liveScreen ≤ 1 ∧
      (composeRun frameInit [(true, true), (false, true)]).2.liveWebcam ≤ 1 ∧
      (composeRun frameInit [(true, true), (false, true)]).2.liveComposed = 0 :=
  (compose_loop_liveness_bounded [(true, true), (false, true)] frameInit
    ⟨rfl, rfl, rfl⟩).2

end Recordly
